import Mathlib

/-!
Shallow embedding of the code-completion result model of `src/completion.rs`.

The native completion buffer is external to this crate: every accessor of
`CompletionString` reads it through opaque engine calls
(`clang_getCompletionPriority`, `clang_getNumCompletionChunks`,
`clang_getCompletionChunkKind`, `clang_getCompletionChunkText`,
`clang_getCompletionChunkCompletionString`).  The embedding models a
completion string by the data those calls expose: its relevance priority and
the chunk sequence its decoder `get_chunks` produces, recursively for the
nested sub-template of an `Optional` chunk.  The pure logic of the source —
`CompletionChunk::get_text`, the `Ord`/`PartialEq` implementations, the
`get_typed_text` scan, and the decision logic of
`CompletionResults::get_context` / `get_container_kind` — is translated
function by function.
-/

namespace ClangRs

/-- Three-way comparison on options exactly as Rust derives `Ord` for
`Option`: `None` is less than `Some _`, and two `Some` values compare by
their contents. -/
def optionCmp (cmp : α → α → Ordering) : Option α → Option α → Ordering
  | none, none => .eq
  | none, some _ => .lt
  | some _, none => .gt
  | some a, some b => cmp a b

/-- Lexicographic three-way comparison of lists, as Rust compares slices:
the first unequal elements decide; otherwise the shorter list is smaller. -/
def listCmp (cmp : α → α → Ordering) : List α → List α → Ordering
  | [], [] => .eq
  | [], _ :: _ => .lt
  | _ :: _, [] => .gt
  | x :: xs, y :: ys =>
    match cmp x y with
    | .eq => listCmp cmp xs ys
    | o => o

/-- Three-way comparison of characters by Unicode scalar value. -/
def charCmp (a b : Char) : Ordering := compare a.toNat b.toNat

/-- Rust's `String` ordering: byte-wise comparison of the UTF-8 encoding,
which for valid UTF-8 coincides with lexicographic comparison of the code
point sequence. -/
def stringCmp (a b : String) : Ordering := listCmp charCmp a.data b.data

mutual

/-- A semantic string that describes a code completion result
(`CompletionString` in `src/completion.rs`).  The Rust value is an opaque
handle into the engine buffer; the model carries the data the engine exposes
through that handle: the priority returned by `get_priority` and the chunk
sequence returned by `get_chunks`. -/
inductive CompletionString : Type where
  | mk (priority : Nat) (chunks : List CompletionChunk)

/-- A piece of a code completion string (`CompletionChunk` in
`src/completion.rs`): twelve fixed punctuation variants, eight text-bearing
variants, and the recursive `Optional` variant wrapping a nested
completion string. -/
inductive CompletionChunk : Type where
  | Colon
  | Comma
  | Equals
  | Semicolon
  | LeftAngleBracket
  | RightAngleBracket
  | LeftBrace
  | RightBrace
  | LeftParenthesis
  | RightParenthesis
  | LeftSquareBracket
  | RightSquareBracket
  | HorizontalSpace (text : String)
  | VerticalSpace (text : String)
  | CurrentParameter (text : String)
  | Informative (text : String)
  | Placeholder (text : String)
  | ResultType (text : String)
  | Text (text : String)
  | TypedText (text : String)
  | Optional (string : CompletionString)

end

/-- Translation of `CompletionChunk::get_text`: the twelve punctuation
variants yield their fixed literal, the eight text-bearing variants yield a
clone of the carried string, and `Optional` yields `None`. -/
def CompletionChunk.get_text : CompletionChunk → Option String
  | .Colon => some ":"
  | .Comma => some ","
  | .Equals => some "="
  | .Semicolon => some ";"
  | .LeftAngleBracket => some "<"
  | .RightAngleBracket => some ">"
  | .LeftBrace => some "\x7b"
  | .RightBrace => some "\x7d"
  | .LeftParenthesis => some "("
  | .RightParenthesis => some ")"
  | .LeftSquareBracket => some "["
  | .RightSquareBracket => some "]"
  | .CurrentParameter text => some text
  | .Informative text => some text
  | .Placeholder text => some text
  | .ResultType text => some text
  | .TypedText text => some text
  | .Text text => some text
  | .HorizontalSpace text => some text
  | .VerticalSpace text => some text
  | .Optional _ => none

/-- Translation of `CompletionChunk::is_optional`. -/
def CompletionChunk.is_optional : CompletionChunk → Bool
  | .Optional _ => true
  | _ => false

/-- Translation of `CompletionString::get_priority`
(`clang_getCompletionPriority`): the priority the engine stored for this
string. -/
def CompletionString.get_priority : CompletionString → Nat
  | .mk priority _ => priority

/-- Translation of `CompletionString::get_chunks`: decodes every chunk of
this template in template order.  In the model the engine buffer content is
the chunk tree itself, so decoding returns the stored sequence. -/
def CompletionString.get_chunks : CompletionString → List CompletionChunk
  | .mk _ chunks => chunks

/-- The loop body of `CompletionString::get_typed_text`: scan a chunk list
in order and return the text of the first `TypedText` chunk. -/
def firstTypedText : List CompletionChunk → Option String
  | [] => none
  | .TypedText text :: _ => some text
  | _ :: rest => firstTypedText rest

/-- Translation of `CompletionString::get_typed_text`: iterate over
`get_chunks()` and return the text of the first `TypedText` chunk,
`None` when the loop finds none. -/
def CompletionString.get_typed_text (s : CompletionString) : Option String :=
  firstTypedText s.get_chunks

/-- Translation of `impl Ord for CompletionString`: compare the priorities;
when they are equal, compare the `Option<String>` typed texts with the
derived option/string orderings. -/
def CompletionString.cmp (s t : CompletionString) : Ordering :=
  match compare s.get_priority t.get_priority with
  | .eq => optionCmp stringCmp s.get_typed_text t.get_typed_text
  | o => o

mutual

/-- Translation of `impl PartialEq for CompletionString`: equality of the
decoded chunk sequences (`self.get_chunks() == other.get_chunks()`); the
priority and the handle identity play no role. -/
def CompletionString.beq : CompletionString → CompletionString → Bool
  | .mk _ cs, .mk _ ds => CompletionChunk.listBeq cs ds
termination_by structural s _ => s

/-- Equality of `Vec<CompletionChunk>` as Rust compares vectors: same
length, equal elements pointwise. -/
def CompletionChunk.listBeq : List CompletionChunk → List CompletionChunk → Bool
  | [], [] => true
  | c :: cs, d :: ds => CompletionChunk.beq c d && CompletionChunk.listBeq cs ds
  | _, _ => false
termination_by structural cs _ => cs

/-- Equality of chunks as derived by `#[derive(PartialEq)]` on
`CompletionChunk`: same variant with equal payloads; the `Optional` variant
compares the nested strings with `CompletionString`'s equality. -/
def CompletionChunk.beq : CompletionChunk → CompletionChunk → Bool
  | .Colon, .Colon => true
  | .Comma, .Comma => true
  | .Equals, .Equals => true
  | .Semicolon, .Semicolon => true
  | .LeftAngleBracket, .LeftAngleBracket => true
  | .RightAngleBracket, .RightAngleBracket => true
  | .LeftBrace, .LeftBrace => true
  | .RightBrace, .RightBrace => true
  | .LeftParenthesis, .LeftParenthesis => true
  | .RightParenthesis, .RightParenthesis => true
  | .LeftSquareBracket, .LeftSquareBracket => true
  | .RightSquareBracket, .RightSquareBracket => true
  | .HorizontalSpace s, .HorizontalSpace t => s == t
  | .VerticalSpace s, .VerticalSpace t => s == t
  | .CurrentParameter s, .CurrentParameter t => s == t
  | .Informative s, .Informative t => s == t
  | .Placeholder s, .Placeholder t => s == t
  | .ResultType s, .ResultType t => s == t
  | .Text s, .Text t => s == t
  | .TypedText s, .TypedText t => s == t
  | .Optional s, .Optional t => CompletionString.beq s t
  | _, _ => false
termination_by structural c _ => c

end

/-- Modelled from the spec: `EntityKind` is "an entity-kind enumeration …
defined elsewhere and treated as [an] opaque classification value here"
(spec section 6); the enumeration itself lives outside the core source.
It is modelled by its numeric cursor-kind code, with the decidable equality
its derived `PartialEq` provides. -/
structure EntityKind where
  code : Nat
deriving DecidableEq

/-- Translation of `CompletionResult`: the entity-kind classification paired
with the completion string. -/
structure CompletionResult where
  kind : EntityKind
  string : CompletionString

/-- Equality of results as derived by `#[derive(PartialEq)]` on
`CompletionResult`: field-wise over `kind` and `string`. -/
def CompletionResult.beq (a b : CompletionResult) : Bool :=
  (a.kind == b.kind) && CompletionString.beq a.string b.string

/-- Translation of `impl Ord for CompletionResult`: delegates to the
completion strings (`self.string.cmp(&other.string)`). -/
def CompletionResult.cmp (a b : CompletionResult) : Ordering :=
  CompletionString.cmp a.string b.string

/-- A code completion context flag set (`CompletionContext` in
`src/completion.rs`, generated by the `options!` macro): one boolean per
`CXCompletionContext` category. -/
structure CompletionContext where
  all_types : Bool
  all_values : Bool
  class_type_values : Bool
  dot_members : Bool
  arrow_members : Bool
  enum_tags : Bool
  union_tags : Bool
  struct_tags : Bool
  class_names : Bool
  namespaces : Bool
  nested_name_specifiers : Bool
  macro_names : Bool
  natural_language : Bool
  objc_object_values : Bool
  objc_selector_values : Bool
  objc_property_members : Bool
  objc_interfaces : Bool
  objc_protocols : Bool
  objc_categories : Bool
  objc_instance_messages : Bool
  objc_class_messages : Bool
  objc_selector_names : Bool
deriving DecidableEq

/-- Bit mask covering every defined `CXCompletionContext` flag (bits 0–21 of
libclang's `enum CXCompletionContext`); `from_bits_truncate` keeps exactly
these bits. -/
def CXCompletionContext.validBits : Nat := 2 ^ 22 - 1

/-- Sentinel `CXCompletionContext_Unknown` from libclang
(`clang-c/Index.h`, re-exported by `clang-sys`): all flag bits set,
`(1 << 22) - 1`. -/
def CXCompletionContext_Unknown : Nat := 2 ^ 22 - 1

/-- Translation of bitflags' `from_bits_truncate`: drop the bits that
correspond to no defined flag. -/
def CXCompletionContext.from_bits_truncate (bits : Nat) : Nat :=
  bits &&& CXCompletionContext.validBits

/-- Decoding a `CXCompletionContext` bit set into the `CompletionContext`
flag record (the `From<CXCompletionContext>` conversion the `options!` macro
generates): each field tests its flag's bit, using libclang's bit positions
(`CXCompletionContext_AnyType = 1 << 0` through
`CXCompletionContext_NaturalLanguage = 1 << 21`). -/
def CompletionContext.from_bits (bits : Nat) : CompletionContext where
  all_types := bits.testBit 0
  all_values := bits.testBit 1
  objc_object_values := bits.testBit 2
  objc_selector_values := bits.testBit 3
  class_type_values := bits.testBit 4
  dot_members := bits.testBit 5
  arrow_members := bits.testBit 6
  objc_property_members := bits.testBit 7
  enum_tags := bits.testBit 8
  union_tags := bits.testBit 9
  struct_tags := bits.testBit 10
  class_names := bits.testBit 11
  namespaces := bits.testBit 12
  nested_name_specifiers := bits.testBit 13
  objc_interfaces := bits.testBit 14
  objc_protocols := bits.testBit 15
  objc_categories := bits.testBit 16
  objc_instance_messages := bits.testBit 17
  objc_class_messages := bits.testBit 18
  objc_selector_names := bits.testBit 19
  macro_names := bits.testBit 20
  natural_language := bits.testBit 21

/-- Translation of `CompletionResults::get_context`.  The argument `bits` is
the `c_uint` value of `clang_codeCompleteGetContexts` that the source
inspects: when it is neither `0` nor the `Unknown` sentinel the decoded
context is returned, otherwise `None`. -/
def get_context (bits : Nat) : Option CompletionContext :=
  if bits ≠ 0 ∧ bits ≠ CXCompletionContext_Unknown then
    some (CompletionContext.from_bits (CXCompletionContext.from_bits_truncate bits))
  else
    none

/-- Cursor-kind code of `CXCursorKind::InvalidCode` in libclang
(`CXCursor_InvalidCode = 73`). -/
def CXCursorKind_InvalidCode : Nat := 73

/-- Translation of `CompletionResults::get_container_kind`.  The arguments
are the engine's outputs: `kind` is the cursor-kind code
`clang_codeCompleteGetContainerKind` returned and `incomplete` the `c_uint`
it stored through its out-parameter.  `InvalidCode` maps to `None`; any
other kind is transmuted to an `EntityKind` and paired with
`incomplete != 0`. -/
def get_container_kind (kind incomplete : Nat) : Option (EntityKind × Bool) :=
  if kind = CXCursorKind_InvalidCode then
    none
  else
    some (⟨kind⟩, incomplete != 0)

/-- A fully decoded completion chunk, following the spec's words: the
"fully decoded chunk sequence" of a completion string is its chunk list
where an `Optional` chunk is taken recursively as the fully decoded chunk
sequence of its nested sub-template (and nothing else of the nested string). -/
inductive DecodedChunk : Type where
  | Colon
  | Comma
  | Equals
  | Semicolon
  | LeftAngleBracket
  | RightAngleBracket
  | LeftBrace
  | RightBrace
  | LeftParenthesis
  | RightParenthesis
  | LeftSquareBracket
  | RightSquareBracket
  | HorizontalSpace (text : String)
  | VerticalSpace (text : String)
  | CurrentParameter (text : String)
  | Informative (text : String)
  | Placeholder (text : String)
  | ResultType (text : String)
  | Text (text : String)
  | TypedText (text : String)
  | Optional (chunks : List DecodedChunk)

mutual

/-- The fully decoded chunk sequence of a completion string (spec side):
decode every chunk, recursively through `Optional` chunks. -/
def CompletionString.decode : CompletionString → List DecodedChunk
  | .mk _ cs => CompletionChunk.decodeList cs
termination_by structural s => s

/-- Pointwise full decoding of a chunk list. -/
def CompletionChunk.decodeList : List CompletionChunk → List DecodedChunk
  | [] => []
  | c :: cs => CompletionChunk.decode c :: CompletionChunk.decodeList cs
termination_by structural cs => cs

/-- Full decoding of one chunk: every non-recursive variant maps to its
`DecodedChunk` twin; `Optional` recurses into the nested string. -/
def CompletionChunk.decode : CompletionChunk → DecodedChunk
  | .Colon => .Colon
  | .Comma => .Comma
  | .Equals => .Equals
  | .Semicolon => .Semicolon
  | .LeftAngleBracket => .LeftAngleBracket
  | .RightAngleBracket => .RightAngleBracket
  | .LeftBrace => .LeftBrace
  | .RightBrace => .RightBrace
  | .LeftParenthesis => .LeftParenthesis
  | .RightParenthesis => .RightParenthesis
  | .LeftSquareBracket => .LeftSquareBracket
  | .RightSquareBracket => .RightSquareBracket
  | .HorizontalSpace text => .HorizontalSpace text
  | .VerticalSpace text => .VerticalSpace text
  | .CurrentParameter text => .CurrentParameter text
  | .Informative text => .Informative text
  | .Placeholder text => .Placeholder text
  | .ResultType text => .ResultType text
  | .Text text => .Text text
  | .TypedText text => .TypedText text
  | .Optional s => .Optional s.decode
termination_by structural c => c

end

/-- The ordering rule exactly as the spec words it (sections 4.3, 4.4 and
8): compare by priority ascending first; on equal priority a result with no
typed text sorts strictly before one with typed text, and two present typed
texts compare lexicographically. -/
def specOrderingRule (a b : CompletionString) : Ordering :=
  if a.get_priority < b.get_priority then .lt
  else if b.get_priority < a.get_priority then .gt
  else
    match a.get_typed_text, b.get_typed_text with
    | none, none => .eq
    | none, some _ => .lt
    | some _, none => .gt
    | some s, some t => stringCmp s t

/-- Test used to state the `get_typed_text` claim: whether a chunk is a
`TypedText` chunk. -/
def isTypedText : CompletionChunk → Bool
  | .TypedText _ => true
  | _ => false

/-- C1: for every pair of `CompletionString` values `a` and `b`, the
comparison `a.cmp(b)` first compares `get_priority()` ascending; when the
priorities are equal it compares `get_typed_text()`, where `None` sorts
strictly before any `Some` value and two `Some` values compare
lexicographically by their string contents (byte/code-point order) — that
is, `cmp` coincides with the spec's ordering rule at every pair. -/
theorem completionString_cmp_follows_spec_rule (a b : CompletionString) :
    CompletionString.cmp a b = specOrderingRule a b := by
  unfold CompletionString.cmp specOrderingRule
  rcases Nat.lt_trichotomy a.get_priority b.get_priority with h | h | h
  · rw [Nat.compare_eq_lt.mpr h]
    simp [h]
  · have h1 : ¬ a.get_priority < b.get_priority := by omega
    have h2 : ¬ b.get_priority < a.get_priority := by omega
    rw [Nat.compare_eq_eq.mpr h, if_neg h1, if_neg h2]
    cases a.get_typed_text <;> cases b.get_typed_text <;> simp [optionCmp]
  · have h1 : ¬ a.get_priority < b.get_priority := by omega
    rw [Nat.compare_eq_gt.mpr h]
    simp [h, h1]

/-- C1 witness: the theorem applied at a concrete pair with equal
priorities, evaluated on both sides. -/
theorem completionString_cmp_follows_spec_rule_witness :
    CompletionString.cmp (.mk 5 [.TypedText "ab"]) (.mk 5 [.TypedText "ac"]) =
      specOrderingRule (.mk 5 [.TypedText "ab"]) (.mk 5 [.TypedText "ac"]) ∧
    CompletionString.cmp (.mk 5 [.TypedText "ab"]) (.mk 5 [.TypedText "ac"]) = .lt :=
  ⟨completionString_cmp_follows_spec_rule (.mk 5 [.TypedText "ab"]) (.mk 5 [.TypedText "ac"]),
    by decide⟩

/-- C2 counterexample: two results whose priorities satisfy `p1 ≤ p2`
(both are 5) but where the first sorts strictly after the second, because
on equal priorities the typed texts decide: `"b"` sorts after `"a"`. -/
theorem result_priority_le_counterexample :
    (CompletionResult.mk ⟨6⟩ (.mk 5 [.TypedText "b"])).string.get_priority ≤
      (CompletionResult.mk ⟨6⟩ (.mk 5 [.TypedText "a"])).string.get_priority ∧
    CompletionResult.cmp (.mk ⟨6⟩ (.mk 5 [.TypedText "b"]))
      (.mk ⟨6⟩ (.mk 5 [.TypedText "a"])) = .gt := by
  constructor
  · decide
  · decide

/-- C2 amended: for every pair of `CompletionResult` values whose strings
have strictly increasing priorities `p1 < p2`, the first sorts strictly
before the second, regardless of the typed text of either result. -/
theorem result_cmp_lt_of_priority_lt (r1 r2 : CompletionResult)
    (h : r1.string.get_priority < r2.string.get_priority) :
    CompletionResult.cmp r1 r2 = .lt := by
  unfold CompletionResult.cmp CompletionString.cmp
  rw [Nat.compare_eq_lt.mpr h]

/-- C2 amended, witness: the amended theorem applied at a concrete pair
with priorities 5 < 7 whose typed texts would compare the other way. -/
theorem result_cmp_lt_of_priority_lt_witness :
    CompletionResult.cmp (.mk ⟨6⟩ (.mk 5 [.TypedText "b"]))
      (.mk ⟨6⟩ (.mk 7 [.TypedText "a"])) = .lt :=
  result_cmp_lt_of_priority_lt (.mk ⟨6⟩ (.mk 5 [.TypedText "b"]))
    (.mk ⟨6⟩ (.mk 7 [.TypedText "a"])) (by decide)

/-- C4 counterexample: a text-bearing variant may carry the empty string —
nothing in the code enforces non-emptiness — and `get_text` then returns
`Some` of an empty string, not of a non-empty one. -/
theorem get_text_empty_payload_counterexample :
    (CompletionChunk.Text "").get_text = some "" ∧ ("" : String).length = 0 := by
  exact ⟨rfl, rfl⟩

/-- C4 amended: `get_text()` on any of the twelve fixed punctuation
variants returns `Some` of the corresponding fixed literal and never
`None`; on every text-bearing variant it returns `Some` of the carried
string (which the code does not require to be non-empty); and it returns
`None` exactly on the `Optional` variant. -/
theorem get_text_amended :
    CompletionChunk.Colon.get_text = some ":" ∧
    CompletionChunk.Comma.get_text = some "," ∧
    CompletionChunk.Equals.get_text = some "=" ∧
    CompletionChunk.Semicolon.get_text = some ";" ∧
    CompletionChunk.LeftAngleBracket.get_text = some "<" ∧
    CompletionChunk.RightAngleBracket.get_text = some ">" ∧
    CompletionChunk.LeftBrace.get_text = some "\x7b" ∧
    CompletionChunk.RightBrace.get_text = some "\x7d" ∧
    CompletionChunk.LeftParenthesis.get_text = some "(" ∧
    CompletionChunk.RightParenthesis.get_text = some ")" ∧
    CompletionChunk.LeftSquareBracket.get_text = some "[" ∧
    CompletionChunk.RightSquareBracket.get_text = some "]" ∧
    (∀ t, (CompletionChunk.HorizontalSpace t).get_text = some t) ∧
    (∀ t, (CompletionChunk.VerticalSpace t).get_text = some t) ∧
    (∀ t, (CompletionChunk.CurrentParameter t).get_text = some t) ∧
    (∀ t, (CompletionChunk.Informative t).get_text = some t) ∧
    (∀ t, (CompletionChunk.Placeholder t).get_text = some t) ∧
    (∀ t, (CompletionChunk.ResultType t).get_text = some t) ∧
    (∀ t, (CompletionChunk.Text t).get_text = some t) ∧
    (∀ t, (CompletionChunk.TypedText t).get_text = some t) ∧
    (∀ s, (CompletionChunk.Optional s).get_text = none) ∧
    (∀ c : CompletionChunk, c.get_text = none ↔ c.is_optional = true) := by
  refine ⟨rfl, rfl, rfl, rfl, rfl, rfl, rfl, rfl, rfl, rfl, rfl, rfl,
    fun _ => rfl, fun _ => rfl, fun _ => rfl, fun _ => rfl, fun _ => rfl,
    fun _ => rfl, fun _ => rfl, fun _ => rfl, fun _ => rfl, fun c => ?_⟩
  cases c <;> simp [CompletionChunk.get_text, CompletionChunk.is_optional]

/-- C5: the total order on `CompletionResult` is delegated entirely to the
`string` field — every comparison equals the comparison of the string
fields, and replacing the `kind` fields by any other kinds leaves the
comparison unchanged. -/
theorem result_cmp_delegates_to_string :
    (∀ a b : CompletionResult,
      CompletionResult.cmp a b = CompletionString.cmp a.string b.string) ∧
    (∀ (k1 k2 l1 l2 : EntityKind) (s t : CompletionString),
      CompletionResult.cmp ⟨k1, s⟩ ⟨k2, t⟩ = CompletionResult.cmp ⟨l1, s⟩ ⟨l2, t⟩) :=
  ⟨fun _ _ => rfl, fun _ _ _ _ _ _ => rfl⟩

/-- Scanning a chunk list that starts with non-`TypedText` chunks skips
them. -/
theorem firstTypedText_append (pre : List CompletionChunk)
    (hpre : ∀ c ∈ pre, isTypedText c = false) (rest : List CompletionChunk) :
    firstTypedText (pre ++ rest) = firstTypedText rest := by
  induction pre with
  | nil => rfl
  | cons c pre ih =>
    have hc : isTypedText c = false := hpre c (by simp)
    have hrest : ∀ d ∈ pre, isTypedText d = false := fun d hd => hpre d (by simp [hd])
    cases c <;> simp [isTypedText] at hc <;> simp [firstTypedText, ih hrest]

/-- The scan returns `none` exactly when the list holds no `TypedText`
chunk. -/
theorem firstTypedText_eq_none_iff (cs : List CompletionChunk) :
    firstTypedText cs = none ↔ ∀ c ∈ cs, isTypedText c = false := by
  induction cs with
  | nil => simp [firstTypedText]
  | cons c rest ih => cases c <;> simp [firstTypedText, isTypedText, ih]

/-- The scan returns `some t` exactly when the list decomposes as a
`TypedText t` chunk preceded only by non-`TypedText` chunks. -/
theorem firstTypedText_eq_some_iff (cs : List CompletionChunk) (t : String) :
    firstTypedText cs = some t ↔
      ∃ pre post, cs = pre ++ CompletionChunk.TypedText t :: post ∧
        ∀ c ∈ pre, isTypedText c = false := by
  constructor
  · intro h
    induction cs with
    | nil => simp [firstTypedText] at h
    | cons c rest ih =>
      cases hc : isTypedText c with
      | true =>
        cases c <;> simp [isTypedText] at hc
        rename_i u
        simp [firstTypedText] at h
        exact ⟨[], rest, by simp [h], by simp⟩
      | false =>
        have h' : firstTypedText rest = some t := by
          cases c <;> simp [isTypedText] at hc <;> simpa [firstTypedText] using h
        obtain ⟨pre, post, hdecomp, hpre⟩ := ih h'
        exact ⟨c :: pre, post, by simp [hdecomp], by
          intro d hd
          rcases List.mem_cons.mp hd with rfl | hd
          · exact hc
          · exact hpre d hd⟩
  · rintro ⟨pre, post, rfl, hpre⟩
    rw [firstTypedText_append pre hpre]
    rfl

/-- C6: `get_typed_text()` returns the literal text of the first
`TypedText` chunk found in document order while decoding the chunk
sequence, and returns `None` when no `TypedText` chunk exists. -/
theorem get_typed_text_is_first_typed_chunk (s : CompletionString) :
    (s.get_typed_text = none ↔ ∀ c ∈ s.get_chunks, isTypedText c = false) ∧
    (∀ t, s.get_typed_text = some t ↔
      ∃ pre post, s.get_chunks = pre ++ CompletionChunk.TypedText t :: post ∧
        ∀ c ∈ pre, isTypedText c = false) :=
  ⟨firstTypedText_eq_none_iff s.get_chunks,
    fun t => firstTypedText_eq_some_iff s.get_chunks t⟩

/-- C6 witness: the spec's own scenario — the template
`TypedText "foo" + LeftParenthesis + Optional(Placeholder "int x") +
RightParenthesis` has typed text `"foo"`; the theorem is applied with the
decomposition whose prefix is empty, and again to a template with a
leading non-`TypedText` chunk and a second `TypedText` chunk. -/
theorem get_typed_text_is_first_typed_chunk_witness :
    (CompletionString.mk 1
      [.TypedText "foo", .LeftParenthesis,
        .Optional (.mk 1 [.Placeholder "int x"]), .RightParenthesis]).get_typed_text
      = some "foo" ∧
    (CompletionString.mk 1
      [.ResultType "int", .TypedText "foo", .TypedText "bar"]).get_typed_text
      = some "foo" :=
  ⟨((get_typed_text_is_first_typed_chunk _).2 "foo").mpr
      ⟨[], [.LeftParenthesis, .Optional (.mk 1 [.Placeholder "int x"]),
        .RightParenthesis], rfl, by simp⟩,
    ((get_typed_text_is_first_typed_chunk _).2 "foo").mpr
      ⟨[.ResultType "int"], [.TypedText "bar"], rfl, by
        intro c hc
        simp at hc
        simp [hc, isTypedText]⟩⟩

/-- Unfolding equation of `CompletionChunk.beq` at a text-bearing diagonal
pair, holding definitionally. -/
theorem chunkBeq_hspace (s t : String) :
    (CompletionChunk.HorizontalSpace s).beq (.HorizontalSpace t) = (s == t) := rfl

/-- Unfolding equation of `CompletionChunk.beq` at a text-bearing diagonal
pair. -/
theorem chunkBeq_vspace (s t : String) :
    (CompletionChunk.VerticalSpace s).beq (.VerticalSpace t) = (s == t) := rfl

/-- Unfolding equation of `CompletionChunk.beq` at a text-bearing diagonal
pair. -/
theorem chunkBeq_current (s t : String) :
    (CompletionChunk.CurrentParameter s).beq (.CurrentParameter t) = (s == t) := rfl

/-- Unfolding equation of `CompletionChunk.beq` at a text-bearing diagonal
pair. -/
theorem chunkBeq_informative (s t : String) :
    (CompletionChunk.Informative s).beq (.Informative t) = (s == t) := rfl

/-- Unfolding equation of `CompletionChunk.beq` at a text-bearing diagonal
pair. -/
theorem chunkBeq_placeholder (s t : String) :
    (CompletionChunk.Placeholder s).beq (.Placeholder t) = (s == t) := rfl

/-- Unfolding equation of `CompletionChunk.beq` at a text-bearing diagonal
pair. -/
theorem chunkBeq_resultType (s t : String) :
    (CompletionChunk.ResultType s).beq (.ResultType t) = (s == t) := rfl

/-- Unfolding equation of `CompletionChunk.beq` at a text-bearing diagonal
pair. -/
theorem chunkBeq_text (s t : String) :
    (CompletionChunk.Text s).beq (.Text t) = (s == t) := rfl

/-- Unfolding equation of `CompletionChunk.beq` at a text-bearing diagonal
pair. -/
theorem chunkBeq_typedText (s t : String) :
    (CompletionChunk.TypedText s).beq (.TypedText t) = (s == t) := rfl

/-- Unfolding equation of `CompletionChunk.decode` at a text-bearing
chunk. -/
theorem chunkDecode_hspace (s : String) :
    (CompletionChunk.HorizontalSpace s).decode = DecodedChunk.HorizontalSpace s := rfl

/-- Unfolding equation of `CompletionChunk.decode` at a text-bearing
chunk. -/
theorem chunkDecode_vspace (s : String) :
    (CompletionChunk.VerticalSpace s).decode = DecodedChunk.VerticalSpace s := rfl

/-- Unfolding equation of `CompletionChunk.decode` at a text-bearing
chunk. -/
theorem chunkDecode_current (s : String) :
    (CompletionChunk.CurrentParameter s).decode = DecodedChunk.CurrentParameter s := rfl

/-- Unfolding equation of `CompletionChunk.decode` at a text-bearing
chunk. -/
theorem chunkDecode_informative (s : String) :
    (CompletionChunk.Informative s).decode = DecodedChunk.Informative s := rfl

/-- Unfolding equation of `CompletionChunk.decode` at a text-bearing
chunk. -/
theorem chunkDecode_placeholder (s : String) :
    (CompletionChunk.Placeholder s).decode = DecodedChunk.Placeholder s := rfl

/-- Unfolding equation of `CompletionChunk.decode` at a text-bearing
chunk. -/
theorem chunkDecode_resultType (s : String) :
    (CompletionChunk.ResultType s).decode = DecodedChunk.ResultType s := rfl

/-- Unfolding equation of `CompletionChunk.decode` at a text-bearing
chunk. -/
theorem chunkDecode_text (s : String) :
    (CompletionChunk.Text s).decode = DecodedChunk.Text s := rfl

/-- Unfolding equation of `CompletionChunk.decode` at a text-bearing
chunk. -/
theorem chunkDecode_typedText (s : String) :
    (CompletionChunk.TypedText s).decode = DecodedChunk.TypedText s := rfl

/-- Unfolding equation of `CompletionChunk.beq` at a pair of `Optional`
chunks. -/
theorem chunkBeq_optional (s t : CompletionString) :
    (CompletionChunk.Optional s).beq (.Optional t) = CompletionString.beq s t := rfl

/-- Unfolding equation of `CompletionChunk.decode` at an `Optional`
chunk. -/
theorem chunkDecode_optional (s : CompletionString) :
    (CompletionChunk.Optional s).decode = DecodedChunk.Optional s.decode := rfl

mutual

/-- The source's structural equality of completion strings agrees with
equality of the fully decoded chunk sequences. -/
theorem stringBeq_iff_decode_eq : ∀ s t : CompletionString,
    CompletionString.beq s t = true ↔ s.decode = t.decode
  | .mk _ cs, .mk _ ds => listBeq_iff_decodeList_eq cs ds

/-- Chunk-list equality agrees with equality of the pointwise full
decodings. -/
theorem listBeq_iff_decodeList_eq : ∀ cs ds : List CompletionChunk,
    CompletionChunk.listBeq cs ds = true ↔
      CompletionChunk.decodeList cs = CompletionChunk.decodeList ds
  | [], [] => iff_of_true rfl rfl
  | [], d :: ds => by
    show false = true ↔
      [] = CompletionChunk.decode d :: CompletionChunk.decodeList ds
    simp
  | c :: cs, [] => by
    show false = true ↔
      CompletionChunk.decode c :: CompletionChunk.decodeList cs = []
    simp
  | c :: cs, d :: ds => by
    show (CompletionChunk.beq c d && CompletionChunk.listBeq cs ds) = true ↔
      CompletionChunk.decode c :: CompletionChunk.decodeList cs =
        CompletionChunk.decode d :: CompletionChunk.decodeList ds
    rw [Bool.and_eq_true, chunkBeq_iff_decode_eq c d,
      listBeq_iff_decodeList_eq cs ds]
    simp

/-- Chunk equality agrees with equality of the full decodings. -/
theorem chunkBeq_iff_decode_eq : ∀ c d : CompletionChunk,
    CompletionChunk.beq c d = true ↔ c.decode = d.decode
  | c, d => by
    cases c <;> cases d <;>
      first
      | exact iff_of_true rfl rfl
      | exact iff_of_false (fun h => Bool.noConfusion h)
          (fun h => DecodedChunk.noConfusion h)
      | (simp only [chunkBeq_optional, chunkDecode_optional]
         exact Iff.trans (stringBeq_iff_decode_eq _ _)
           ⟨fun h => by rw [h], fun h => by injection h⟩)
      | simp only [chunkBeq_hspace, chunkBeq_vspace, chunkBeq_current,
          chunkBeq_informative, chunkBeq_placeholder, chunkBeq_resultType,
          chunkBeq_text, chunkBeq_typedText, chunkDecode_hspace,
          chunkDecode_vspace, chunkDecode_current, chunkDecode_informative,
          chunkDecode_placeholder, chunkDecode_resultType, chunkDecode_text,
          chunkDecode_typedText, beq_iff_eq, DecodedChunk.HorizontalSpace.injEq,
          DecodedChunk.VerticalSpace.injEq, DecodedChunk.CurrentParameter.injEq,
          DecodedChunk.Informative.injEq, DecodedChunk.Placeholder.injEq,
          DecodedChunk.ResultType.injEq, DecodedChunk.Text.injEq,
          DecodedChunk.TypedText.injEq]

end

/-- C3: equality of `CompletionString` values is structural — two values
are equal exactly when their fully decoded chunk sequences are equal
element-wise (recursively through `Optional` chunks) — and it is
reflexive, symmetric, and transitive. -/
theorem string_structural_eq :
    (∀ s t : CompletionString,
      CompletionString.beq s t = true ↔ s.decode = t.decode) ∧
    (∀ s, CompletionString.beq s s = true) ∧
    (∀ s t, CompletionString.beq s t = true → CompletionString.beq t s = true) ∧
    (∀ s t u, CompletionString.beq s t = true → CompletionString.beq t u = true →
      CompletionString.beq s u = true) := by
  refine ⟨stringBeq_iff_decode_eq, fun s => ?_, fun s t h => ?_, fun s t u h1 h2 => ?_⟩
  · exact (stringBeq_iff_decode_eq s s).mpr rfl
  · exact (stringBeq_iff_decode_eq t s).mpr ((stringBeq_iff_decode_eq s t).mp h).symm
  · exact (stringBeq_iff_decode_eq s u).mpr
      (((stringBeq_iff_decode_eq s t).mp h1).trans ((stringBeq_iff_decode_eq t u).mp h2))

/-- C3 witness: transitivity applied at three concrete strings that are
structurally equal (textually identical templates, including an identical
nested `Optional` sub-template) while their priorities differ. -/
theorem string_structural_eq_witness :
    CompletionString.beq
      (.mk 1 [.TypedText "foo", .Optional (.mk 4 [.Placeholder "int x"])])
      (.mk 3 [.TypedText "foo", .Optional (.mk 6 [.Placeholder "int x"])]) = true :=
  string_structural_eq.2.2.2
    (.mk 1 [.TypedText "foo", .Optional (.mk 4 [.Placeholder "int x"])])
    (.mk 2 [.TypedText "foo", .Optional (.mk 5 [.Placeholder "int x"])])
    (.mk 3 [.TypedText "foo", .Optional (.mk 6 [.Placeholder "int x"])])
    (by decide)
    (by decide)

/-- C7: `get_context` returns `None` exactly when the reported bitmask is
zero or the `Unknown` sentinel; for any other bitmask it returns `Some` of
the context decoded from that bitmask. -/
theorem get_context_none_iff :
    (∀ bits, get_context bits = none ↔
      bits = 0 ∨ bits = CXCompletionContext_Unknown) ∧
    (∀ bits, bits ≠ 0 → bits ≠ CXCompletionContext_Unknown →
      get_context bits = some (CompletionContext.from_bits
        (CXCompletionContext.from_bits_truncate bits))) := by
  constructor
  · intro bits
    unfold get_context
    split_ifs with h
    · simp only [reduceCtorEq, false_iff]
      tauto
    · simp only [true_iff]
      tauto
  · intro bits h0 hU
    unfold get_context
    rw [if_pos ⟨h0, hU⟩]

/-- C7 witness: the theorem applied at the concrete bitmask 33
(`AnyType` and `DotMemberAccess` set), which is neither zero nor the
sentinel, and at both degenerate bitmasks. -/
theorem get_context_none_iff_witness :
    get_context 33 = some (CompletionContext.from_bits
      (CXCompletionContext.from_bits_truncate 33)) ∧
    get_context 0 = none ∧
    get_context CXCompletionContext_Unknown = none :=
  ⟨get_context_none_iff.2 33 (by decide) (by decide),
    (get_context_none_iff.1 0).mpr (Or.inl rfl),
    (get_context_none_iff.1 CXCompletionContext_Unknown).mpr (Or.inr rfl)⟩

/-- C8: `get_container_kind` returns `None` exactly when the engine
reports the invalid-container cursor kind; otherwise it returns `Some` of
the entity kind paired with an `incomplete` flag that is `true` exactly
when the engine's out-parameter is nonzero. -/
theorem get_container_kind_spec :
    (∀ kind incomplete, get_container_kind kind incomplete = none ↔
      kind = CXCursorKind_InvalidCode) ∧
    (∀ kind incomplete, kind ≠ CXCursorKind_InvalidCode →
      get_container_kind kind incomplete = some (⟨kind⟩, incomplete != 0) ∧
      ((incomplete != 0) = true ↔ incomplete ≠ 0)) := by
  constructor
  · intro k i
    unfold get_container_kind
    split_ifs with h <;> simp [h]
  · intro k i h
    unfold get_container_kind
    rw [if_neg h]
    exact ⟨rfl, bne_iff_ne⟩

/-- C8 witness: the theorem applied at a valid container kind with a
nonzero incompleteness flag, and at the invalid-container code. -/
theorem get_container_kind_spec_witness :
    get_container_kind 9 1 = some (⟨9⟩, true) ∧
    get_container_kind CXCursorKind_InvalidCode 1 = none :=
  ⟨(get_container_kind_spec.2 9 1 (by decide)).1,
    (get_container_kind_spec.1 CXCursorKind_InvalidCode 1).mpr rfl⟩

/-- C9: equality on `CompletionResult` is derived field-wise over `kind`
and `string`, so for the concrete pair below — equal strings, different
kinds — `cmp` returns `Equal` while `==` returns `false`: the total order
and equality on `CompletionResult` are not consistent. -/
theorem result_eq_fieldwise_vs_cmp :
    (∀ a b : CompletionResult, CompletionResult.beq a b = true ↔
      a.kind = b.kind ∧ CompletionString.beq a.string b.string = true) ∧
    CompletionResult.cmp (.mk ⟨8⟩ (.mk 5 [.TypedText "foo"]))
      (.mk ⟨9⟩ (.mk 5 [.TypedText "foo"])) = .eq ∧
    CompletionResult.beq (.mk ⟨8⟩ (.mk 5 [.TypedText "foo"]))
      (.mk ⟨9⟩ (.mk 5 [.TypedText "foo"])) = false := by
  refine ⟨fun a b => ?_, by decide, by decide⟩
  simp [CompletionResult.beq]

/-- C10: a concrete pair of completion strings with equal priority, equal
typed text, but different decoded chunk sequences: `cmp` returns `Equal`
while structural equality returns `false`, so `Ordering.eq` under the
order does not imply structural equality. -/
theorem cmp_eq_without_structural_eq :
    (CompletionString.mk 5 [.TypedText "foo"]).get_priority =
      (CompletionString.mk 5 [.TypedText "foo", .Colon]).get_priority ∧
    (CompletionString.mk 5 [.TypedText "foo"]).get_typed_text =
      (CompletionString.mk 5 [.TypedText "foo", .Colon]).get_typed_text ∧
    (CompletionString.mk 5 [.TypedText "foo"]).get_chunks ≠
      (CompletionString.mk 5 [.TypedText "foo", .Colon]).get_chunks ∧
    CompletionString.cmp (.mk 5 [.TypedText "foo"])
      (.mk 5 [.TypedText "foo", .Colon]) = .eq ∧
    CompletionString.beq (.mk 5 [.TypedText "foo"])
      (.mk 5 [.TypedText "foo", .Colon]) = false := by
  refine ⟨rfl, rfl, ?_, by decide, by decide⟩
  simp [CompletionString.get_chunks]

end ClangRs
